import Mathlib

/-!
Verification of the line-translation and mapping-loading logic of
`src/main.py` (CPS-to-CSV).  Python strings are modelled as `List Char`,
Python dicts as ordered association lists, raised exceptions as `Except`
error results, and `print`-ed warnings as a collected list of strings in
emission order.
-/

set_option linter.unusedVariables false

/-- Python strings are modelled as lists of characters. -/
abbrev Str := List Char

/-- Association-list lookup, modelling Python dict indexing `d[k]` (and the
membership test `k in d`, via `≠ none`).  JSON objects and the `value_map`
dicts of `main.py` are modelled as ordered association lists. -/
def alookup {α : Type} : List (Str × α) → Str → Option α
  | [], _ => none
  | (k, v) :: rest, q => if k = q then some v else alookup rest q

/-- Python slice `line[s - 1 : e]` for a 1-indexed start offset `s ≥ 1` and a
non-negative end offset `e`, as computed at line 133 of `main.py`
(`line[loc["start"] - 1 : loc["end"]]`). -/
def pySlice (line : Str) (s e : Nat) : Str :=
  (line.drop (s - 1)).take (e - (s - 1))

/-- One field mapping of the translation specification (data model §3).
`stop` models the attribute named `end` in the JSON document (`end` is a
reserved word in Lean); offsets are the 1-indexed inclusive `[start, end]`
range.  `value_map` is the per-field translation dict. -/
structure FieldMapping where
  key : Str
  start : Nat
  stop : Nat
  value_map : List (Str × Str)
deriving DecidableEq

/-- The error raised at lines 138-140 of `main.py` when a field location does
not exist on a line (the spec calls this kind `LocationError`).  It carries
the mapping key and the line index that appear in the message. -/
inductive TransError where
  | locationError (key : Str) (idx : Nat)
deriving DecidableEq

/-- Message of the error raised at lines 138-140 of `main.py`: the text
reads Location for KEY does not exist for line INDEX. -/
def locationMessage (key : Str) (i : Nat) : Str :=
  "Location for ".data ++ key ++ " does not exist for line ".data ++ (Nat.repr i).data

/-- The message carried by a `TransError`. -/
def TransError.message : TransError → Str
  | .locationError k i => locationMessage k i

/-- The exact text printed at lines 150-152 of `main.py`: the text reads
WARNING: Line INDEX missing translation for KEY: VALUE. -/
def warningText (i : Nat) (key v : Str) : Str :=
  "WARNING: Line ".data ++ (Nat.repr i).data ++ " missing translation for ".data
    ++ key ++ ": ".data ++ v

/-- Body of the inner loop of `translate_lines` (lines 128-152 of `main.py`)
for one mapping `tr` on the line with index `i`: slice the input value, raise
if it is empty, otherwise translate through `value_map` with verbatim
fallback, warning (second component) when the map is non-empty and the value
is absent from it. -/
def translateOne (i : Nat) (line : Str) (tr : FieldMapping) :
    Except TransError (Str × List Str) :=
  let input_value := pySlice line tr.start tr.stop
  if input_value = [] then
    .error (.locationError tr.key i)
  else
    match alookup tr.value_map input_value with
    | some w => .ok (w, [])
    | none =>
      .ok (input_value, if tr.value_map = [] then [] else [warningText i tr.key input_value])

/-- The inner loop of `translate_lines` over the whole mapping list: the
translated values of line `i` in mapping order (the `line_vals` list of
`main.py`), paired with the warnings printed for this line in emission
order.  The first empty slice aborts with its `TransError`. -/
def translateLineVals (i : Nat) (line : Str) :
    List FieldMapping → Except TransError (List Str × List Str)
  | [] => .ok ([], [])
  | tr :: rest =>
    match translateOne i line tr with
    | .error e => .error e
    | .ok (v, ws) =>
      match translateLineVals i line rest with
      | .error e => .error e
      | .ok (vs, wss) => .ok (v :: vs, ws ++ wss)

/-- Python `",".join(xs)`: the elements of `xs` interspersed with the
separator and concatenated. -/
def joinComma (xs : List Str) : Str :=
  (List.intersperse [','] xs).flatten

/-- The outer loop of `translate_lines` (lines 120-157 of `main.py`),
starting at line index `i`: one output string `",".join(line_vals) + "\n"`
per input line, in input order, paired with all warnings in emission order. -/
def translate_lines_from (i : Nat) (lines : List Str) (info : List FieldMapping) :
    Except TransError (List Str × List Str) :=
  match lines with
  | [] => .ok ([], [])
  | line :: rest =>
    match translateLineVals i line info with
    | .error e => .error e
    | .ok (vals, ws) =>
      match translate_lines_from (i + 1) rest info with
      | .error e => .error e
      | .ok (rows, ws2) => .ok ((joinComma vals ++ '\n' :: []) :: rows, ws ++ ws2)

/-- `translate_lines` of `main.py`: lines are enumerated from index 0. -/
def translate_lines (lines : List Str) (info : List FieldMapping) :
    Except TransError (List Str × List Str) :=
  translate_lines_from 0 lines info

/-- `make_csv_header` of `main.py` (lines 99-106):
`",".join([tr["key"] for tr in translation_info])`. -/
def make_csv_header (translation_info : List FieldMapping) : Str :=
  joinComma (translation_info.map (fun tr => tr.key))

/-- The file content produced by `main` (lines 229-230 of `main.py`):
`out_fh.write(header + "\n")` followed by `out_fh.writelines(csv_lines)`;
`writelines` concatenates the row strings without adding anything. -/
def output_text (header : Str) (csv_lines : List Str) : Str :=
  (header ++ '\n' :: []) ++ csv_lines.flatten

/-- Per-mapping warning emission as §4.2 step 5 of the spec describes it:
exactly one warning for extracted value `v` when the mapping has a non-empty
`value_map` that does not contain `v`, and no warning otherwise. -/
def mappingWarnings (i : Nat) (tr : FieldMapping) (v : Str) : List Str :=
  if tr.value_map ≠ [] ∧ alookup tr.value_map v = none then [warningText i tr.key v] else []

/-- Specification-level translated values of one line: for each mapping in
order, the slice resolved through `value_map` with verbatim fallback. -/
def lineValsSpec (line : Str) (info : List FieldMapping) : List Str :=
  info.map (fun tr =>
    (alookup tr.value_map (pySlice line tr.start tr.stop)).getD
      (pySlice line tr.start tr.stop))

/-- Specification-level warnings of one line, in mapping order. -/
def lineWarningsSpec (i : Nat) (line : Str) : List FieldMapping → List Str
  | [] => []
  | tr :: rest =>
    mappingWarnings i tr (pySlice line tr.start tr.stop) ++ lineWarningsSpec i line rest

/-- Specification-level warnings of a whole run, lines enumerated from `i`. -/
def runWarningsSpec (i : Nat) (lines : List Str) (info : List FieldMapping) : List Str :=
  match lines with
  | [] => []
  | line :: rest => lineWarningsSpec i line info ++ runWarningsSpec (i + 1) rest info

/-- Specification-level output rows: one row per input line in input order,
each the comma-join of the line translated values plus the trailing newline
appended at line 155 of `main.py`. -/
def rowsSpec (lines : List Str) (info : List FieldMapping) : List Str :=
  lines.map (fun line => joinComma (lineValsSpec line info) ++ '\n' :: [])

/-- Comma-join as the spec words it (§8 header order property): the keys in
exact sequence order with a comma between consecutive entries. -/
def commaJoinSpec : List Str → Str
  | [] => []
  | [x] => x
  | x :: y :: ys => x ++ ',' :: commaJoinSpec (y :: ys)

/-- Decides whether `translate_lines` fails with a `LocationError` that
identifies an offending mapping/line pair: the result is an error whose key
`k` and index `m` name a mapping of `info` with key `k` whose slice of line
`m` is empty, and whose message is the location message for that key and
index. -/
def failsWithLocationError (lines : List Str) (info : List FieldMapping) : Bool :=
  match translate_lines lines info with
  | .error e =>
    match e with
    | .locationError k m =>
      match lines.get? m with
      | some l =>
        info.any (fun tr =>
          decide (tr.key = k) && decide (pySlice l tr.start tr.stop = []) &&
            decide (TransError.message (.locationError k m) = locationMessage tr.key m))
      | none => false
  | .ok _ => false

/-- Sample mapping (spec §8 round-trip scenario): `sex`, columns 1-1,
value_map sending the code 1 to M and the code 2 to F. -/
def sexM : FieldMapping :=
  ⟨"sex".data, 1, 1, [("1".data, "M".data), ("2".data, "F".data)]⟩

/-- Sample mapping: `age`, columns 2-3, empty value_map. -/
def ageM : FieldMapping := ⟨"age".data, 2, 3, []⟩

/-- Sample mapping whose range lies beyond short lines: `far`, columns 5-7. -/
def farM : FieldMapping := ⟨"far".data, 5, 7, []⟩

/-- Parsed JSON values, the result of `json.load` in `get_translation_info`
(lines 81-96 of `main.py`).  Objects keep the key order of the document, as
Python dicts do. -/
inductive JVal where
  | null
  | bool (b : Bool)
  | int (n : Int)
  | str (s : Str)
  | arr (elems : List JVal)
  | obj (fields : List (Str × JVal))

instance : Inhabited JVal := ⟨JVal.null⟩

/-- Python exceptions that the body of `_check_translation_item` can raise
while inspecting an entry, before they are converted: `AttributeError` from
`.keys()` on a non-dict, `TypeError` from subscripting a non-dict, `KeyError`
from a missing key, and the bare `MissingFieldError` raised by the `if`. -/
inductive PyExc where
  | attributeError
  | typeError
  | keyError
  | missingFieldExc
deriving DecidableEq

/-- Errors surfaced by the mapping loader: `MissingFieldError` (the kind the
spec calls `ConfigError`) with its message, or an uncaught Python `TypeError`
from iterating a non-iterable `translations` value. -/
inductive LoadError where
  | missingField (msg : Str)
  | pyTypeError
deriving DecidableEq

/-- Python `v.keys()`: the keys of a dict in order; `AttributeError` on any
non-dict value. -/
def jKeys : JVal → Except PyExc (List Str)
  | .obj fields => .ok (fields.map Prod.fst)
  | _ => .error .attributeError

/-- Python `v[k]` on a JSON value: dict lookup, `KeyError` when the key is
absent, `TypeError` when `v` is not a dict. -/
def jGet : JVal → Str → Except PyExc JVal
  | .obj fields, k =>
    match alookup fields k with
    | some v => .ok v
    | none => .error .keyError
  | _, _ => .error .typeError

/-- Python `for x in v`: the element sequence of a list, the keys of a dict,
the one-character strings of a string; `TypeError` otherwise. -/
def jIter : JVal → Except PyExc (List JVal)
  | .arr elems => .ok elems
  | .obj fields => .ok (fields.map (fun p => .str p.1))
  | .str s => .ok (s.map (fun c => .str [c]))
  | _ => .error .typeError

/-- The JSON attribute name `translations`. -/
def translationsKey : Str := "translations".data

/-- The JSON attribute name `key`. -/
def keyKey : Str := "key".data

/-- The JSON attribute name `location`. -/
def locationKey : Str := "location".data

/-- The JSON attribute name `value_map`. -/
def valueMapKey : Str := "value_map".data

/-- The JSON attribute name `start`. -/
def startKey : Str := "start".data

/-- The JSON attribute name `end`. -/
def endKey : Str := "end".data

/-- The required top-level entry attributes (line 67 of `main.py`). -/
def topLevelFields : List Str := [keyKey, locationKey, valueMapKey]

/-- The required location attributes (line 68 of `main.py`). -/
def locationFields : List Str := [startKey, endKey]

/-- Python `required & set(ks) == required`, i.e. every required name occurs
among the keys `ks` (extra keys are tolerated). -/
def hasAll (required ks : List Str) : Bool :=
  required.all (fun f => decide (f ∈ ks))

/-- Message of the error raised at line 90 of `main.py`: the text reads
Bad translation file: Missing QUOTE translations QUOTE field, where QUOTE
is character 39 (the single-quote character) glued to the word. -/
def missingTransMsg : Str :=
  "Bad translation file: Missing ".data
    ++ Char.ofNat 39 :: "translations".data ++ Char.ofNat 39 :: " field".data

/-- Message of the error raised at lines 76-78 of `main.py`, stated there
verbatim: `"Bad translation file: Item(s) missing fields(s)"`. -/
def itemMsg : Str := "Bad translation file: Item(s) missing fields(s)".data

/-- The `try` body of `_check_translation_item` (lines 70-74 of `main.py`):
evaluate `top_level_fields & set(tr.keys()) != top_level_fields`, and on
short-circuit failure `location_fields & set(tr["location"].keys()) !=
location_fields`, raising `MissingFieldError` when either holds; any step may
itself raise another exception. -/
def checkItemInner (tr : JVal) : Except PyExc Unit :=
  match jKeys tr with
  | .error e => .error e
  | .ok ks =>
    if hasAll topLevelFields ks then
      match jGet tr locationKey with
      | .error e => .error e
      | .ok loc =>
        match jKeys loc with
        | .error e => .error e
        | .ok lks =>
          if hasAll locationFields lks then .ok () else .error .missingFieldExc
    else .error .missingFieldExc

/-- `_check_translation_item` of `main.py` (lines 57-78): any exception
raised by the body is caught and re-raised as `MissingFieldError` with the
fixed message. -/
def _check_translation_item (tr : JVal) : Except LoadError Unit :=
  match checkItemInner tr with
  | .ok _ => .ok ()
  | .error _ => .error (.missingField itemMsg)

/-- The validation loop of `get_translation_info` (lines 93-94 of
`main.py`): check every entry in order, aborting at the first failure. -/
def checkItems : List JVal → Except LoadError Unit
  | [] => .ok ()
  | tr :: rest =>
    match _check_translation_item tr with
    | .error e => .error e
    | .ok _ => checkItems rest

/-- `get_translation_info` of `main.py` (lines 81-96), taking the fields of
the already-parsed top-level JSON object: fail when `translations` is absent,
validate every entry of its value, and return that value unchanged. -/
def get_translation_info (input_json : List (Str × JVal)) : Except LoadError JVal :=
  match alookup input_json translationsKey with
  | none => .error (.missingField missingTransMsg)
  | some translation_info =>
    match jIter translation_info with
    | .error _ => .error .pyTypeError
    | .ok items =>
      match checkItems items with
      | .error e => .error e
      | .ok _ => .ok translation_info

/-- Completeness of one entry as §4.1 of the spec words it: the entry is a
mapping carrying `key`, `location` and `value_map`, and its `location` is a
mapping carrying `start` and `end`. -/
def entryComplete (tr : JVal) : Bool :=
  match tr with
  | .obj fs =>
    hasAll topLevelFields (fs.map Prod.fst) &&
      (match alookup fs locationKey with
       | some (.obj lfs) => hasAll locationFields (lfs.map Prod.fst)
       | _ => false)
  | _ => false

/-- Whether a JSON value is usable as a Python slice offset: integers are,
and so are booleans (Python `bool` is an `int` subtype); everything else
raises `TypeError` when sliced with. -/
def usableAsIndex : JVal → Bool
  | .int _ => true
  | .bool _ => true
  | _ => false

/-- Whether an entry carries a `location.start` or `location.end` value that
is not usable as an integer offset. -/
def startEndMistyped (tr : JVal) : Bool :=
  match tr with
  | .obj fs =>
    (match alookup fs locationKey with
     | some (.obj lfs) =>
       (match alookup lfs startKey with
        | some v => !usableAsIndex v
        | none => false) ||
       (match alookup lfs endKey with
        | some v => !usableAsIndex v
        | none => false)
     | _ => false)
  | _ => false

/-- Whether an `Except` result is a success. -/
def exceptIsOk {ε α : Type} : Except ε α → Bool
  | .ok _ => true
  | .error _ => false

/-- A complete sample entry: `sex`, columns 1-1, value_map sending 1 to M. -/
def goodEntry : JVal :=
  .obj [(keyKey, .str ("sex".data)),
        (locationKey, .obj [(startKey, .int 1), (endKey, .int 1)]),
        (valueMapKey, .obj [(("1".data), .str ("M".data))])]

/-- A top-level object whose `translations` list holds `goodEntry`. -/
def goodFields : List (Str × JVal) := [(translationsKey, .arr [goodEntry])]

/-- An entry lacking the required `location` attribute. -/
def badEntry : JVal :=
  .obj [(keyKey, .str ("sex".data)), (valueMapKey, .obj [])]

/-- A top-level object whose `translations` list holds `badEntry`. -/
def badFields : List (Str × JVal) := [(translationsKey, .arr [badEntry])]

/-- A top-level object with no `translations` attribute. -/
def emptyFields : List (Str × JVal) := []

/-- A complete entry whose `location.start` is the string `"x"`, not an
integer. -/
def mistypedEntry : JVal :=
  .obj [(keyKey, .str ("sex".data)),
        (locationKey, .obj [(startKey, .str ("x".data)), (endKey, .int 2)]),
        (valueMapKey, .obj [])]

/-- A top-level object whose `translations` list holds `mistypedEntry`. -/
def mistypedFields : List (Str × JVal) := [(translationsKey, .arr [mistypedEntry])]

/-- On a non-empty slice, `translateOne` resolves the slice through the
value map with verbatim fallback and emits the warning exactly when the map
is non-empty and the slice is absent from it. -/
theorem translateOne_resolve (i : Nat) (line : Str) (tr : FieldMapping)
    (hv : pySlice line tr.start tr.stop ≠ []) :
    translateOne i line tr =
      .ok ((alookup tr.value_map (pySlice line tr.start tr.stop)).getD
             (pySlice line tr.start tr.stop),
           mappingWarnings i tr (pySlice line tr.start tr.stop)) := by
  cases h : alookup tr.value_map (pySlice line tr.start tr.stop) with
  | none =>
    by_cases hm : tr.value_map = [] <;>
      simp [translateOne, mappingWarnings, alookup, hv, h, hm]
  | some w =>
    simp [translateOne, mappingWarnings, hv, h]

/-- On an empty slice, `translateOne` raises the location error carrying the
mapping key and the line index. -/
theorem translateOne_empty (i : Nat) (line : Str) (tr : FieldMapping)
    (hv : pySlice line tr.start tr.stop = []) :
    translateOne i line tr = .error (.locationError tr.key i) := by
  simp [translateOne, hv]

/-- When every mapping slices a non-empty value out of the line, the inner
loop succeeds with the specification-level values and warnings. -/
theorem translateLineVals_ok (i : Nat) (line : Str) (info : List FieldMapping)
    (h : ∀ tr ∈ info, pySlice line tr.start tr.stop ≠ []) :
    translateLineVals i line info =
      .ok (lineValsSpec line info, lineWarningsSpec i line info) := by
  induction info with
  | nil => rfl
  | cons tr rest ih =>
    have h1 : pySlice line tr.start tr.stop ≠ [] := h tr (by simp)
    have h2 : ∀ tr' ∈ rest, pySlice line tr'.start tr'.stop ≠ [] :=
      fun tr' htr' => h tr' (by simp [htr'])
    simp only [translateLineVals, translateOne_resolve i line tr h1, ih h2,
      lineValsSpec, lineWarningsSpec, List.map_cons]

/-- Claim C1: for every data line and mapping with a non-empty extracted
substring, the extraction is the zero-indexed half-open range
`[start - 1, end)` of the line, and the translated value is
`value_map[substring]` when the substring is a key of `value_map` and the
substring verbatim otherwise (`Option.getD` states exactly this policy). -/
theorem translateOne_value_policy (i : Nat) (line : Str) (tr : FieldMapping)
    (hv : pySlice line tr.start tr.stop ≠ []) :
    pySlice line tr.start tr.stop = (line.take tr.stop).drop (tr.start - 1) ∧
    translateOne i line tr =
      .ok ((alookup tr.value_map (pySlice line tr.start tr.stop)).getD
             (pySlice line tr.start tr.stop),
           mappingWarnings i tr (pySlice line tr.start tr.stop)) :=
  ⟨(List.drop_take tr.stop (tr.start - 1) line).symm, translateOne_resolve i line tr hv⟩

/-- Witness for C1 at line `"9"` and the `sex` mapping (slice `"9"`, absent
from the value map, passed through verbatim with a warning). -/
theorem translateOne_value_policy_witness :
    pySlice ("9".data) sexM.start sexM.stop =
      (("9".data).take sexM.stop).drop (sexM.start - 1) ∧
    translateOne 0 ("9".data) sexM =
      .ok ((alookup sexM.value_map (pySlice ("9".data) sexM.start sexM.stop)).getD
             (pySlice ("9".data) sexM.start sexM.stop),
           mappingWarnings 0 sexM (pySlice ("9".data) sexM.start sexM.stop)) :=
  translateOne_value_policy 0 ("9".data) sexM (by decide)

/-- Claim C9: when the line is at least `start` long but shorter than `end`,
the slice is the truncated substring from position `start - 1` to the end of
the line, it is non-empty, and `translateOne` resolves it like any other
value instead of raising a location error. -/
theorem overrun_truncates (i : Nat) (line : Str) (tr : FieldMapping)
    (h1 : 1 ≤ tr.start) (h2 : tr.start ≤ line.length) (h3 : line.length < tr.stop) :
    pySlice line tr.start tr.stop = line.drop (tr.start - 1) ∧
    pySlice line tr.start tr.stop ≠ [] ∧
    translateOne i line tr =
      .ok ((alookup tr.value_map (line.drop (tr.start - 1))).getD
             (line.drop (tr.start - 1)),
           mappingWarnings i tr (line.drop (tr.start - 1))) := by
  have hdlen : (line.drop (tr.start - 1)).length = line.length - (tr.start - 1) :=
    List.length_drop _ _
  have heq : pySlice line tr.start tr.stop = line.drop (tr.start - 1) := by
    have hle : (line.drop (tr.start - 1)).length ≤ tr.stop - (tr.start - 1) := by omega
    exact List.take_of_length_le hle
  have hne : pySlice line tr.start tr.stop ≠ [] := by
    rw [heq]
    intro hnil
    have hlen := congrArg List.length hnil
    rw [hdlen] at hlen
    simp at hlen
    omega
  refine ⟨heq, hne, ?_⟩
  have hres := translateOne_resolve i line tr hne
  rw [heq] at hres
  exact hres

/-- Witness for C9 at line `"13"` and the `age` mapping (columns 2-3 on a
line of length 2: the slice truncates to `"3"`). -/
theorem overrun_truncates_witness :
    pySlice ("13".data) ageM.start ageM.stop = ("13".data).drop (ageM.start - 1) ∧
    pySlice ("13".data) ageM.start ageM.stop ≠ [] ∧
    translateOne 0 ("13".data) ageM =
      .ok ((alookup ageM.value_map (("13".data).drop (ageM.start - 1))).getD
             (("13".data).drop (ageM.start - 1)),
           mappingWarnings 0 ageM (("13".data).drop (ageM.start - 1))) :=
  overrun_truncates 0 ("13".data) ageM (by decide) (by decide) (by decide)

/-- Counterexample to C2 as stated: the warning the code prints for line
`"9"` under the `sex` mapping is the string with the `WARNING: ` prefix, not
the bare text `Line 0 missing translation for sex: 9` that the claim
quotes. -/
theorem warning_prefix_counterexample :
    translate_lines [("9".data)] [sexM] =
      .ok ([("9\n".data)], [("WARNING: Line 0 missing translation for sex: 9".data)]) ∧
    ("WARNING: Line 0 missing translation for sex: 9".data) ≠
      ("Line 0 missing translation for sex: 9".data) :=
  ⟨rfl, by decide⟩

/-- Claim C2 (amended): on a line where every slice is non-empty, translation
of the line succeeds, and its warning list is exactly, in mapping order, one
warning reading WARNING: Line INDEX missing translation for KEY: VALUE for each
mapping whose `value_map` is non-empty and does not contain the extracted
value, and no warning for any other mapping (in particular none for an empty
`value_map`); `mappingWarnings` states this per-mapping emission policy. -/
theorem line_warning_emission (i : Nat) (line : Str) (info : List FieldMapping)
    (h : ∀ tr ∈ info, pySlice line tr.start tr.stop ≠ []) :
    translateLineVals i line info =
      .ok (lineValsSpec line info, lineWarningsSpec i line info) :=
  translateLineVals_ok i line info h

/-- Witness for C2 (amended) at line `"9"` and the `sex` mapping. -/
theorem line_warning_emission_witness :
    translateLineVals 0 ("9".data) [sexM] =
      .ok (lineValsSpec ("9".data) [sexM], lineWarningsSpec 0 ("9".data) [sexM]) :=
  line_warning_emission 0 ("9".data) [sexM] (by decide)

/-- Python `",".join` coincides with the comma-join the spec describes. -/
theorem joinComma_eq_spec : ∀ xs : List Str, joinComma xs = commaJoinSpec xs
  | [] => rfl
  | [x] => by simp [joinComma, commaJoinSpec]
  | x :: y :: ys => by
    have ih := joinComma_eq_spec (y :: ys)
    simp only [joinComma, List.intersperse, List.flatten_cons, commaJoinSpec] at ih ⊢
    rw [← ih]
    simp

/-- Claim C4: `make_csv_header` returns exactly the comma-join of the mapping
keys in sequence order; it is a total function with no error cases. -/
theorem csv_header_order (M : List FieldMapping) :
    make_csv_header M = commaJoinSpec (M.map FieldMapping.key) :=
  joinComma_eq_spec (M.map FieldMapping.key)

/-- A successful `translateOne` determines the slice, value and warnings. -/
theorem translateOne_ok_inv (i : Nat) (line : Str) (tr : FieldMapping)
    (v : Str) (ws : List Str) (h : translateOne i line tr = .ok (v, ws)) :
    v = (alookup tr.value_map (pySlice line tr.start tr.stop)).getD
          (pySlice line tr.start tr.stop) ∧
    ws = mappingWarnings i tr (pySlice line tr.start tr.stop) := by
  by_cases hv : pySlice line tr.start tr.stop = []
  · rw [translateOne_empty i line tr hv] at h
    cases h
  · rw [translateOne_resolve i line tr hv] at h
    cases h
    exact ⟨rfl, rfl⟩

/-- A successful inner loop produces exactly the specification-level values
and warnings of the line. -/
theorem translateLineVals_ok_inv (i : Nat) (line : Str) (info : List FieldMapping)
    (vals ws : List Str) (h : translateLineVals i line info = .ok (vals, ws)) :
    vals = lineValsSpec line info ∧ ws = lineWarningsSpec i line info := by
  induction info generalizing vals ws with
  | nil =>
    cases h
    exact ⟨rfl, rfl⟩
  | cons tr rest ih =>
    rw [translateLineVals] at h
    cases h0 : translateOne i line tr with
    | error e => rw [h0] at h; cases h
    | ok p =>
      obtain ⟨v, w1⟩ := p
      rw [h0] at h
      cases h1 : translateLineVals i line rest with
      | error e => rw [h1] at h; cases h
      | ok q =>
        obtain ⟨vs, wss⟩ := q
        rw [h1] at h
        cases h
        have hone := translateOne_ok_inv i line tr v w1 h0
        have hrest := ih vs wss h1
        rw [lineValsSpec, List.map_cons, lineWarningsSpec]
        rw [hone.1, hone.2, hrest.1, hrest.2]
        exact ⟨rfl, rfl⟩

/-- A successful outer loop produces exactly the specification-level rows
and warnings, whatever start index the lines are enumerated from. -/
theorem translate_lines_from_ok_inv (j : Nat) (lines : List Str)
    (info : List FieldMapping) (rows ws : List Str)
    (h : translate_lines_from j lines info = .ok (rows, ws)) :
    rows = rowsSpec lines info ∧ ws = runWarningsSpec j lines info := by
  induction lines generalizing j rows ws with
  | nil =>
    cases h
    exact ⟨rfl, rfl⟩
  | cons line rest ih =>
    rw [translate_lines_from] at h
    cases h0 : translateLineVals j line info with
    | error e => rw [h0] at h; cases h
    | ok p =>
      obtain ⟨vals, ws1⟩ := p
      rw [h0] at h
      cases h1 : translate_lines_from (j + 1) rest info with
      | error e => rw [h1] at h; cases h
      | ok q =>
        obtain ⟨rows', ws2⟩ := q
        rw [h1] at h
        cases h
        have hline := translateLineVals_ok_inv j line info vals ws1 h0
        have hrest := ih (j + 1) rows' ws2 h1
        rw [rowsSpec, List.map_cons, runWarningsSpec]
        rw [hline.1, hline.2, hrest.1, hrest.2]
        exact ⟨rfl, rfl⟩

/-- Claim C5: a run of `translate_lines` that succeeds returns exactly one
output row per input line, and the row at each index is the translation of
the input line at the same index (`rowsSpec` maps translation over the lines
in input order). -/
theorem rows_one_per_line (lines : List Str) (info : List FieldMapping)
    (rows ws : List Str) (h : translate_lines lines info = .ok (rows, ws)) :
    rows.length = lines.length ∧ rows = rowsSpec lines info := by
  have h2 := translate_lines_from_ok_inv 0 lines info rows ws h
  refine ⟨?_, h2.1⟩
  rw [h2.1, rowsSpec, List.length_map]

/-- Witness for C5 on the single line `"1"` under the `sex` mapping. -/
theorem rows_one_per_line_witness :
    ([("M\n".data)] : List Str).length = ([("1".data)] : List Str).length ∧
    ([("M\n".data)] : List Str) = rowsSpec [("1".data)] [sexM] :=
  rows_one_per_line [("1".data)] [sexM] [("M\n".data)] [] rfl

/-- Counterexample to C8 as stated: for line `"1"` under the `sex` mapping
the row produced by `translate_lines` is `"M\n"`, which is not the bare
comma-join `"M"` of the translated values — the trailing newline is appended
inside `translate_lines` (line 155 of `main.py`), not by the caller. -/
theorem row_newline_counterexample :
    translate_lines [("1".data)] [sexM] = .ok ([("M\n".data)], []) ∧
    ("M\n".data) ≠ joinComma (lineValsSpec ("1".data) [sexM]) :=
  ⟨rfl, by decide⟩

/-- Claim C8 (amended): each row produced by `translate_lines` is the
comma-join of the per-mapping translated values followed by a trailing
newline appended by `translate_lines` itself; the caller (`main`, lines
229-230) writes the rows with `writelines`, which appends nothing further. -/
theorem rows_carry_newline (header : Str) (lines : List Str)
    (info : List FieldMapping) (rows ws : List Str)
    (h : translate_lines lines info = .ok (rows, ws)) :
    rows = rowsSpec lines info ∧
    rowsSpec lines info =
      lines.map (fun line => joinComma (lineValsSpec line info) ++ '\n' :: []) ∧
    output_text header rows = header ++ '\n' :: rows.flatten := by
  refine ⟨(translate_lines_from_ok_inv 0 lines info rows ws h).1, rfl, ?_⟩
  rw [output_text, List.append_assoc]
  rfl

/-- Witness for C8 (amended) on the single line `"1"` under the `sex`
mapping. -/
theorem rows_carry_newline_witness :
    ([("M\n".data)] : List Str) = rowsSpec [("1".data)] [sexM] ∧
    rowsSpec [("1".data)] [sexM] =
      [("1".data)].map (fun line => joinComma (lineValsSpec line [sexM]) ++ '\n' :: []) ∧
    output_text ("sex".data) [("M\n".data)] =
      "sex".data ++ '\n' :: ([("M\n".data)] : List Str).flatten :=
  rows_carry_newline ("sex".data) [("1".data)] [sexM] [("M\n".data)] [] rfl

/-- When some mapping slices an empty value out of the line, the inner loop
fails with the location error of the first such mapping. -/
theorem translateLineVals_err (i : Nat) (line : Str) (info : List FieldMapping)
    (h : ∃ tr ∈ info, pySlice line tr.start tr.stop = []) :
    ∃ tr', tr' ∈ info ∧ pySlice line tr'.start tr'.stop = [] ∧
      translateLineVals i line info = .error (.locationError tr'.key i) := by
  induction info with
  | nil => simp at h
  | cons tr rest ih =>
    by_cases h0 : pySlice line tr.start tr.stop = []
    · exact ⟨tr, by simp, h0,
        by simp [translateLineVals, translateOne_empty i line tr h0]⟩
    · have hrest : ∃ tr' ∈ rest, pySlice line tr'.start tr'.stop = [] := by
        rcases h with ⟨tr', htr', he⟩
        rcases List.mem_cons.mp htr' with heq | hmem
        · rw [heq] at he; exact absurd he h0
        · exact ⟨tr', hmem, he⟩
      rcases ih hrest with ⟨tr', hmem, he, herr⟩
      refine ⟨tr', by simp [hmem], he, ?_⟩
      simp [translateLineVals, translateOne_resolve i line tr h0, herr]

/-- When some line of the input has a mapping with an empty slice, the outer
loop started at index `j` fails with a location error whose key and index
name an offending mapping/line pair. -/
theorem translate_from_err (lines : List Str) (j : Nat) (info : List FieldMapping)
    (h : ∃ i line tr, lines.get? i = some line ∧ tr ∈ info ∧
      pySlice line tr.start tr.stop = []) :
    ∃ k m l tr', translate_lines_from j lines info = .error (.locationError k m) ∧
      j ≤ m ∧ lines.get? (m - j) = some l ∧ tr' ∈ info ∧ tr'.key = k ∧
      pySlice l tr'.start tr'.stop = [] := by
  induction lines generalizing j with
  | nil =>
    rcases h with ⟨i, line, tr, hget, _, _⟩
    simp at hget
  | cons line0 rest ih =>
    by_cases hbad : ∃ tr ∈ info, pySlice line0 tr.start tr.stop = []
    · rcases translateLineVals_err j line0 info hbad with ⟨tr', hmem, he, herr⟩
      refine ⟨tr'.key, j, line0, tr', ?_, Nat.le_refl j, ?_, hmem, rfl, he⟩
      · simp [translate_lines_from, herr]
      · simp
    · push_neg at hbad
      have hok := translateLineVals_ok j line0 info hbad
      rcases h with ⟨i, line, tr, hget, hmem, he⟩
      cases i with
      | zero =>
        rw [List.get?_cons_zero] at hget
        cases hget
        exact absurd he (hbad tr hmem)
      | succ m =>
        rw [List.get?_cons_succ] at hget
        rcases ih (j + 1) ⟨m, line, tr, hget, hmem, he⟩ with
          ⟨k, n, l, tr', herr, hjn, hget', hmem', hkey, he'⟩
        refine ⟨k, n, l, tr', ?_, by omega, ?_, hmem', hkey, he'⟩
        · simp [translate_lines_from, hok, herr]
        · have hsub : n - j = (n - (j + 1)) + 1 := by omega
          rw [hsub, List.get?_cons_succ]
          exact hget'

/-- Claim C3: whenever some mapping's declared start exceeds the length of
some input line, the whole run of `translate_lines` fails with a
`LocationError` (no rows are produced), and the error identifies the key of
an offending mapping and the index of an offending line, with the message
reading Location for KEY does not exist for line INDEX
(`failsWithLocationError` checks all of this on the result). -/
theorem location_failure_aborts (lines : List Str) (info : List FieldMapping)
    (i : Nat) (line : Str) (tr : FieldMapping)
    (h1 : lines.get? i = some line) (h2 : tr ∈ info)
    (h3 : line.length < tr.start) :
    failsWithLocationError lines info = true := by
  have hempty : pySlice line tr.start tr.stop = [] := by
    have hd : line.drop (tr.start - 1) = [] := List.drop_eq_nil_of_le (by omega)
    rw [pySlice, hd, List.take_nil]
  rcases translate_from_err lines 0 info ⟨i, line, tr, h1, h2, hempty⟩ with
    ⟨k, m, l, tr', herr, _, hget, hmem', hkey, he'⟩
  have herr2 : translate_lines lines info = .error (.locationError k m) := herr
  rw [Nat.sub_zero] at hget
  rw [failsWithLocationError, herr2]
  simp only [hget, List.any_eq_true]
  exact ⟨tr', hmem', by simp [hkey, he', TransError.message]⟩

/-- Witness for C3: the `far` mapping (columns 5-7) on the single line
`"ab"` of length 2. -/
theorem location_failure_aborts_witness :
    failsWithLocationError [("ab".data)] [farM] = true :=
  location_failure_aborts [("ab".data)] [farM] 0 ("ab".data) farM rfl
    (by simp) (by decide)

/-- A key that occurs among the keys of an association list is found by
lookup. -/
theorem alookup_mem {α : Type} (fs : List (Str × α)) (k : Str)
    (h : k ∈ fs.map Prod.fst) : ∃ v, alookup fs k = some v := by
  induction fs with
  | nil => simp at h
  | cons p rest ih =>
    obtain ⟨a, b⟩ := p
    by_cases hk : a = k
    · exact ⟨b, by simp [alookup, hk]⟩
    · rw [List.map_cons, List.mem_cons] at h
      rcases h with heq | hmem
      · exact absurd heq.symm hk
      · rcases ih hmem with ⟨v, hv⟩
        exact ⟨v, by simp [alookup, hk, hv]⟩

/-- The per-entry check succeeds exactly on complete entries, and every kind
of failure — missing attributes, a non-mapping entry, a non-mapping
`location` — surfaces as the one `MissingFieldError` with the fixed
message. -/
theorem check_item_eq (tr : JVal) :
    _check_translation_item tr =
      if entryComplete tr then .ok () else .error (.missingField itemMsg) := by
  cases tr with
  | null => simp [_check_translation_item, checkItemInner, jKeys, entryComplete]
  | bool b => simp [_check_translation_item, checkItemInner, jKeys, entryComplete]
  | int n => simp [_check_translation_item, checkItemInner, jKeys, entryComplete]
  | str s => simp [_check_translation_item, checkItemInner, jKeys, entryComplete]
  | arr es => simp [_check_translation_item, checkItemInner, jKeys, entryComplete]
  | obj fs =>
    by_cases h1 : hasAll topLevelFields (fs.map Prod.fst) = true
    · have hloc : locationKey ∈ fs.map Prod.fst := by
        simp [hasAll, topLevelFields] at h1
        rcases h1.2.1 with ⟨x, hx⟩
        exact List.mem_map_of_mem Prod.fst hx
      rcases alookup_mem fs locationKey hloc with ⟨v, hv⟩
      cases v with
      | obj lfs =>
        by_cases h2 : hasAll locationFields (lfs.map Prod.fst) = true
        · simp [_check_translation_item, checkItemInner, jKeys, jGet,
            entryComplete, h1, h2, hv]
        · simp [_check_translation_item, checkItemInner, jKeys, jGet,
            entryComplete, h1, h2, hv]
      | null =>
        simp [_check_translation_item, checkItemInner, jKeys, jGet,
          entryComplete, h1, hv]
      | bool b =>
        simp [_check_translation_item, checkItemInner, jKeys, jGet,
          entryComplete, h1, hv]
      | int n =>
        simp [_check_translation_item, checkItemInner, jKeys, jGet,
          entryComplete, h1, hv]
      | str s =>
        simp [_check_translation_item, checkItemInner, jKeys, jGet,
          entryComplete, h1, hv]
      | arr es =>
        simp [_check_translation_item, checkItemInner, jKeys, jGet,
          entryComplete, h1, hv]
    · simp [_check_translation_item, checkItemInner, jKeys, entryComplete, h1]

/-- The entry loop fails with the fixed `MissingFieldError` exactly when
some entry is incomplete. -/
theorem checkItems_eq (items : List JVal) :
    checkItems items =
      if items.all entryComplete then .ok () else .error (.missingField itemMsg) := by
  induction items with
  | nil => rfl
  | cons tr rest ih =>
    by_cases h : entryComplete tr = true
    · simp [checkItems, check_item_eq tr, List.all_cons, h, ih]
    · simp [checkItems, check_item_eq tr, List.all_cons, h]

/-- Claim C6: the loader fails with the missing-translations
`MissingFieldError` when the top-level `translations` key is absent; when it
is present with a list of entries, the loader fails with the
missing-field(s) `MissingFieldError` when some entry is incomplete, and
succeeds returning exactly the entry list in order when all entries are
complete. -/
theorem loader_validation (fields : List (Str × JVal)) (entries : List JVal) :
    (alookup fields translationsKey = none →
      get_translation_info fields = .error (.missingField missingTransMsg)) ∧
    (alookup fields translationsKey = some (.arr entries) →
      entries.all entryComplete = false →
      get_translation_info fields = .error (.missingField itemMsg)) ∧
    (alookup fields translationsKey = some (.arr entries) →
      entries.all entryComplete = true →
      get_translation_info fields = .ok (.arr entries)) := by
  refine ⟨?_, ?_, ?_⟩
  · intro h
    simp [get_translation_info, h]
  · intro h ha
    simp [get_translation_info, h, jIter, checkItems_eq, ha]
  · intro h ha
    simp [get_translation_info, h, jIter, checkItems_eq, ha]

/-- Witness for C6: a document with no `translations` key, one with an entry
lacking `location`, and a fully complete one. -/
theorem loader_validation_witness :
    get_translation_info emptyFields = .error (.missingField missingTransMsg) ∧
    get_translation_info badFields = .error (.missingField itemMsg) ∧
    get_translation_info goodFields = .ok (.arr [goodEntry]) :=
  ⟨(loader_validation emptyFields []).1 rfl,
   (loader_validation badFields [badEntry]).2.1 rfl rfl,
   (loader_validation goodFields [goodEntry]).2.2 rfl rfl⟩

/-- Counterexample to C7 as stated: an entry whose `location.start` is the
string `"x"` — not usable as an integer offset — passes the loader, which
returns it successfully instead of failing with a `ConfigError`. -/
theorem mistyped_start_counterexample :
    startEndMistyped mistypedEntry = true ∧
    get_translation_info mistypedFields = .ok (.arr [mistypedEntry]) :=
  ⟨rfl, rfl⟩

/-- Claim C7 (amended): the loader validates only the presence of the
required attributes and performs no type validation of `start`/`end`; a
specification whose entries are complete loads successfully even when some
entry carries a `start` or `end` that is not usable as an integer offset, so
no `ConfigError` is raised for mistyped offsets at load time. -/
theorem loader_no_type_check (fields : List (Str × JVal)) (entries : List JVal)
    (h1 : alookup fields translationsKey = some (.arr entries))
    (h2 : entries.all entryComplete = true)
    (h3 : entries.any startEndMistyped = true) :
    get_translation_info fields = .ok (.arr entries) := by
  simp [get_translation_info, h1, jIter, checkItems_eq, h2]

/-- Witness for C7 (amended) on the document whose single entry has the
string `"x"` as `location.start`. -/
theorem loader_no_type_check_witness :
    get_translation_info mistypedFields = .ok (.arr [mistypedEntry]) :=
  loader_no_type_check mistypedFields [mistypedEntry] rfl rfl rfl

/-- Claim C10: whenever the body of the per-entry validation does not
succeed — because a required attribute is missing, the entry is not a
mapping (`AttributeError` on `.keys()`), or its `location` is not a mapping
— `_check_translation_item` converts the failure to the one
`MissingFieldError` with the fixed message, never surfacing another
exception type. -/
theorem shape_errors_uniform (tr : JVal)
    (h : exceptIsOk (checkItemInner tr) = false) :
    _check_translation_item tr = .error (.missingField itemMsg) := by
  cases hc : checkItemInner tr with
  | ok u =>
    rw [hc] at h
    simp [exceptIsOk] at h
  | error e =>
    simp [_check_translation_item, hc]

/-- Witness for C10 at the non-mapping entry `0`. -/
theorem shape_errors_uniform_witness :
    exceptIsOk (checkItemInner (JVal.int 0)) = false ∧
    _check_translation_item (JVal.int 0) = .error (.missingField itemMsg) :=
  ⟨rfl, shape_errors_uniform (JVal.int 0) rfl⟩
